import Mathlib

/-!
Verification of the Iyzico transaction-count forecasting pipeline.

The Python pipeline is shallowly embedded: numeric columns become lists of
rationals, NaN cells become `Option.none`, the dataframe becomes a list of
records, and the pandas group-by transforms become explicit functions on the
per-group sub-series.  Dates are embedded as day numbers counted from
2018-01-01 (the first day of the dataset) via an explicit Gregorian calendar.
-/

/-- One record of the dataframe: merchant identifier, transaction date
(as a day number from 2018-01-01) and the target column. -/
structure Row where
  merchant_id : ℕ
  transaction_date : ℕ
  total_transaction : ℚ
deriving DecidableEq

/-- Gregorian leap-year test. -/
def isLeap (y : ℕ) : Bool := (y % 4 == 0 && y % 100 != 0) || (y % 400 == 0)

/-- Length of month `m` of year `y` (0 for an invalid month index). -/
def daysInMonth (y m : ℕ) : ℕ :=
  match m with
  | 1 => 31 | 2 => if isLeap y then 29 else 28 | 3 => 31 | 4 => 30
  | 5 => 31 | 6 => 30 | 7 => 31 | 8 => 31 | 9 => 30 | 10 => 31
  | 11 => 30 | 12 => 31 | _ => 0

/-- One-based ordinal of the date `(y, m, d)` within year `y`. -/
def dayOfYear (y m d : ℕ) : ℕ :=
  ((List.range (m - 1)).map (fun k => daysInMonth y (k + 1))).sum + d

/-- Day number of `(y, m, d)` counted from 2018-01-01 (day 0),
the first date of the dataset. -/
def dayNumber (y m d : ℕ) : ℕ :=
  ((List.range (y - 2018)).map (fun k => if isLeap (2018 + k) then 366 else 365)).sum
    + dayOfYear y m d - 1

/-- Last date present in the dataset (2020-12-31), per the repository's
exploration step. -/
def datasetEndDay : ℕ := dayNumber 2020 12 31

/-- The split cutoff 2020-10-01 used to form the train / validation sets. -/
def cutoffDay : ℕ := dayNumber 2020 10 1

/-- `train`: rows strictly before the cutoff (line 226 of the script). -/
def trainRows (rows : List Row) : List Row :=
  rows.filter (fun r => decide (r.transaction_date < cutoffDay))

/-- `val`: rows on or after the cutoff (line 229 of the script). -/
def valRows (rows : List Row) : List Row :=
  rows.filter (fun r => decide (cutoffDay ≤ r.transaction_date))

/-- The per-position SMAPE ratio `|pred - target| / (|pred| + |target|)`
(`num / denom` in the script). -/
def smapeBase (pt : ℚ × ℚ) : ℚ := |pt.1 - pt.2| / (|pt.1| + |pt.2|)

/-- The keep-mask `masked_arr = ~((preds == 0) & (target == 0))`. -/
def smapeKeep (pt : ℚ × ℚ) : Bool := !decide (pt.1 = 0 ∧ pt.2 = 0)

/-- The `smape` function of the script.  `n = len(preds)`; positions where
both entries are zero are masked out; the result is
`200 * sum(num / denom) / n`.  On empty input the script's final division is
`0 / 0`, which numpy evaluates to NaN (no exception is raised); the NaN
outcome is embedded as `none`. -/
def smape (preds target : List ℚ) : Option ℚ :=
  if preds.length = 0 then none
  else some (200 * (((preds.zip target).filter smapeKeep).map smapeBase).sum
              / preds.length)

/-- The per-position contribution described by the specification: a masked
both-zero position contributes zero, any other position contributes
`200 * |pred - target| / (|pred| + |target|)`. -/
def smapePointTerm (pt : ℚ × ℚ) : ℚ :=
  if pt.1 = 0 ∧ pt.2 = 0 then 0 else 200 * smapeBase pt

/-- A list column of length `n` whose entry at position `i` is `f i`. -/
def colOfFun {A : Type*} (n : ℕ) (f : ℕ → A) : List A := (List.range n).map f

/-- The target sub-series of one merchant, in dataframe order: the pandas
group that `groupby(["merchant_id"])['Total_Transaction']` forms. -/
def subSeries (m : ℕ) (rows : List Row) : List ℚ :=
  (rows.filter (fun r => decide (r.merchant_id = m))).map (fun r => r.total_transaction)

/-- In-group position of global row `j`: how many earlier rows belong to the
same merchant `m`. -/
def groupPos (rows : List Row) (m j : ℕ) : ℕ :=
  ((rows.take j).filter (fun s => decide (s.merchant_id = m))).length

/-- Pandas `groupby("merchant_id")['Total_Transaction'].transform(f)`: the
per-merchant series is passed to `f` and the result is scattered back to the
original row positions.  A NaN produced by `f` stays `none`. -/
def groupTransform (f : List ℚ → List (Option ℚ)) (rows : List Row) : List (Option ℚ) :=
  colOfFun rows.length (fun j =>
    rows[j]?.bind (fun r =>
      ((f (subSeries r.merchant_id rows))[groupPos rows r.merchant_id j]?).join))

/-- Adding the `random_noise(dataframe)` sample to a column: row `j` receives
its own noise value `noise j`; a NaN cell stays NaN. -/
def addNoise (noise : ℕ → ℚ) (col : List (Option ℚ)) : List (Option ℚ) :=
  colOfFun col.length (fun j => (col[j]?.join).map (fun v => v + noise j))

/-- Pandas `Series.shift(lag)`: position `i` receives the value at position
`i - lag`, and the first `lag` positions become NaN. -/
def shiftList (lag : ℕ) (xs : List ℚ) : List (Option ℚ) :=
  colOfFun xs.length (fun i => if lag ≤ i then xs[i - lag]? else none)

/-- The scipy triangular window weight at index `k` of a window of length
`M` (weights rise linearly to the window centre and fall symmetrically). -/
def triangWeight (M k : ℕ) : ℚ :=
  if M % 2 = 1 then (2 * ((min k (M - 1 - k) : ℕ) : ℚ) + 2) / ((M : ℚ) + 1)
  else (2 * ((min k (M - 1 - k) : ℕ) : ℚ) + 1) / (M : ℚ)

/-- The (value, weight) pairs of the trailing window ending at position `i`:
the non-NaN entries among positions `i - w + 1 .. i`, each paired with the
triangular weight of its slot in the window. -/
def rollWindowPairs (w : ℕ) (xs : List (Option ℚ)) (i : ℕ) : List (ℚ × ℚ) :=
  (List.range (i + 1 - (i + 1 - w))).filterMap (fun k =>
    (xs[(i + 1 - w) + k]?.join).map
      (fun v => (v, triangWeight w (w - 1 - (i - ((i + 1 - w) + k))))))

/-- One entry of `rolling(window=w, min_periods=minp, win_type="triang").mean()`:
the weighted mean of the non-NaN window values, NaN when fewer than `minp`
observations are available. -/
def rollEntry (w minp : ℕ) (xs : List (Option ℚ)) (i : ℕ) : Option ℚ :=
  if minp ≤ (rollWindowPairs w xs i).length then
    if ((rollWindowPairs w xs i).map (fun p => p.2)).sum = 0 then none
    else some (((rollWindowPairs w xs i).map (fun p => p.1 * p.2)).sum
                / ((rollWindowPairs w xs i).map (fun p => p.2)).sum)
  else none

/-- Pandas triangular-weighted rolling mean of a series with NaN cells. -/
def rollTriang (w minp : ℕ) (xs : List (Option ℚ)) : List (Option ℚ) :=
  colOfFun xs.length (rollEntry w minp xs)

/-- The (value, weight) pairs feeding `ewm(alpha=al).mean()` at position `t`:
each non-NaN entry at position `j ≤ t` weighted by `(1 - al) ^ (t - j)`
(pandas default `adjust=True`, `ignore_na=False`). -/
def ewmPairs (al : ℚ) (xs : List (Option ℚ)) (t : ℕ) : List (ℚ × ℚ) :=
  (List.range (t + 1)).filterMap (fun j =>
    (xs[j]?.join).map (fun v => (v, (1 - al) ^ (t - j))))

/-- One entry of the exponentially weighted mean: normalized weighted sum of
the non-NaN prefix, NaN while no observation has been seen. -/
def ewmEntry (al : ℚ) (xs : List (Option ℚ)) (t : ℕ) : Option ℚ :=
  if ((ewmPairs al xs t).map (fun p => p.2)).sum = 0 then none
  else some (((ewmPairs al xs t).map (fun p => p.1 * p.2)).sum
              / ((ewmPairs al xs t).map (fun p => p.2)).sum)

/-- Pandas `Series.ewm(alpha=al).mean()` over a series with NaN cells. -/
def ewmList (al : ℚ) (xs : List (Option ℚ)) : List (Option ℚ) :=
  colOfFun xs.length (ewmEntry al xs)

/-- The column `sales_lag_<lag>` built by `lag_features` (lines 131-135):
group-wise `shift(lag)` plus per-row Gaussian noise. -/
def lagFeatureCol (lag : ℕ) (noise : ℕ → ℚ) (rows : List Row) : List (Option ℚ) :=
  addNoise noise (groupTransform (shiftList lag) rows)

/-- The column `sales_roll_mean_<w>` built by `roll_mean_features`
(lines 147-151): group-wise `shift(1)` then triangular rolling mean with
`min_periods=10`, plus per-row Gaussian noise. -/
def rollFeatureCol (w : ℕ) (noise : ℕ → ℚ) (rows : List Row) : List (Option ℚ) :=
  addNoise noise (groupTransform (fun s => rollTriang w 10 (shiftList 1 s)) rows)

/-- The column `sales_ewm_alpha_<al>_lag_<lag>` built by `ewm_features`
(lines 160-165): group-wise `shift(lag)` then `ewm(alpha=al).mean()`,
with no noise. -/
def ewmFeatureCol (al : ℚ) (lag : ℕ) (rows : List Row) : List (Option ℚ) :=
  groupTransform (fun s => ewmList al (shiftList lag s)) rows

/-- The rows of one merchant together with their global row indices. -/
def groupEnum (rows : List Row) (m : ℕ) : List (ℕ × Row) :=
  (List.enumFrom 0 rows).filter (fun p => decide (p.2.merchant_id = m))

/-- The lag list passed to `lag_features` (lines 137-140), copied verbatim
(including the duplicated 352 and the absent 353). -/
def lagsUsed : List ℕ :=
  [91, 92, 170, 171, 172, 173, 174, 175, 176, 177, 178, 179, 180, 181, 182,
   183, 184, 185, 186, 187, 188, 189, 190,
   350, 351, 352, 352, 354, 355, 356, 357, 358, 359, 360, 361, 362, 363, 364,
   365, 366, 367, 368, 369, 370,
   538, 539, 540, 541, 542,
   718, 719, 720, 721, 722]

/-- The eight dates flagged by the script as summer-solstice days
(lines 182-184): June 19-22 of 2018 and of 2019, as day numbers. -/
def summerSolsticeDates : List ℕ :=
  [dayNumber 2018 6 19, dayNumber 2018 6 20, dayNumber 2018 6 21,
   dayNumber 2018 6 22, dayNumber 2019 6 19, dayNumber 2019 6 20,
   dayNumber 2019 6 21, dayNumber 2019 6 22]

/-- The `is_summer_solstice` indicator of the script: 1 on the eight listed
dates, 0 elsewhere. -/
def isSummerSolstice (d : ℕ) : ℕ := if d ∈ summerSolsticeDates then 1 else 0

/-- Astronomical June-solstice day of month for the dataset years:
June 21 in 2018 and 2019, June 20 in 2020. -/
def solsticeDayOfMonth (y : ℕ) : ℕ := if y = 2020 then 20 else 21

/-- The indicator the claim describes (stated from the claim's words, for
comparison with the code's `isSummerSolstice`): membership in the inclusive
±3-day window around the year's summer-solstice date. -/
def claimedSolsticeWindow (y m d : ℕ) : Bool :=
  decide (dayNumber y 6 (solsticeDayOfMonth y) - 3 ≤ dayNumber y m d ∧
    dayNumber y m d ≤ dayNumber y 6 (solsticeDayOfMonth y) + 3)

/-- Outcome of `np.log1p` on one value, with the numeric value of the
logarithm kept symbolically as its argument: finite for `x > -1`, negative
infinity at `x = -1`, NaN below `-1`.  numpy raises no exception in any of
these cases (the script silences the RuntimeWarning). -/
inductive Log1pResult where
  | finite (arg : ℚ)
  | negInf
  | nan
deriving DecidableEq

/-- `np.log1p` on one target cell. -/
def log1pModel (x : ℚ) : Log1pResult :=
  if x < -1 then Log1pResult.nan
  else if x = -1 then Log1pResult.negInf
  else Log1pResult.finite x

/-- Line 193 of the script: `np.log1p` mapped over the whole target column,
with no validity check before it. -/
def transformTarget (ts : List ℚ) : List Log1pResult := ts.map log1pModel

/-- A three-row dataframe with two merchants; merchant 1 holds the series
[10, 20] at global positions 1 and 2. -/
def rowsA : List Row := [⟨2, 0, 99⟩, ⟨1, 0, 10⟩, ⟨1, 1, 20⟩]

/-- A two-row dataframe holding only merchant 1 with the same series
[10, 20], at different global positions and dates than in `rowsA`. -/
def rowsB : List Row := [⟨1, 5, 10⟩, ⟨1, 6, 20⟩]

theorem sum_mask_eq (l : List (ℚ × ℚ)) :
    200 * ((l.filter smapeKeep).map smapeBase).sum = (l.map smapePointTerm).sum := by
  induction l with
  | nil => simp
  | cons pt l ih =>
    by_cases h : pt.1 = 0 ∧ pt.2 = 0
    · have hk : smapeKeep pt = false := by simp [smapeKeep, h]
      simp [List.filter_cons, hk, smapePointTerm, h, ih]
    · have hk : smapeKeep pt = true := by simp [smapeKeep, h]
      simp only [List.filter_cons, hk, if_true, List.map_cons, List.sum_cons,
        mul_add, smapePointTerm, if_neg h, ih]

/-- Claim C1: for equal-length non-empty inputs, `smape` masks exactly the
both-zero positions, scores every other position with
`200 * |pred - target| / (|pred| + |target|)`, and divides the total by the
original (pre-mask) length, so each masked position contributes zero to the
average. -/
theorem smape_masked_average (preds target : List ℚ)
    (_hlen : preds.length = target.length) (hne : preds ≠ []) :
    smape preds target
      = some (((preds.zip target).map smapePointTerm).sum / preds.length) := by
  have hn : preds.length ≠ 0 := by simpa [List.length_eq_zero] using hne
  rw [smape, if_neg hn, ← sum_mask_eq]

/-- Witness for C1 at preds = [0, 3], target = [0, 6]. -/
theorem smape_masked_average_witness :
    ([(0 : ℚ), 3].length = [(0 : ℚ), 6].length) ∧ ([(0 : ℚ), 3] ≠ []) ∧
      smape [(0 : ℚ), 3] [(0 : ℚ), 6]
        = some ((([(0 : ℚ), 3].zip [(0 : ℚ), 6]).map smapePointTerm).sum
                  / [(0 : ℚ), 3].length) :=
  ⟨rfl, by decide, smape_masked_average [0, 3] [0, 6] rfl (by decide)⟩

theorem smapeBase_nonneg (pt : ℚ × ℚ) : 0 ≤ smapeBase pt :=
  div_nonneg (abs_nonneg _) (add_nonneg (abs_nonneg _) (abs_nonneg _))

theorem smapeBase_le_one (pt : ℚ × ℚ) (h : smapeKeep pt = true) : smapeBase pt ≤ 1 := by
  have hne : ¬(pt.1 = 0 ∧ pt.2 = 0) := by
    intro hc
    simp [smapeKeep, hc] at h
  have hpos : 0 < |pt.1| + |pt.2| := by
    rcases not_and_or.mp hne with h1 | h1
    · exact add_pos_of_pos_of_nonneg (abs_pos.mpr h1) (abs_nonneg _)
    · exact add_pos_of_nonneg_of_pos (abs_nonneg _) (abs_pos.mpr h1)
  rw [smapeBase, div_le_one hpos]
  calc |pt.1 - pt.2| = |pt.1 + -pt.2| := by rw [sub_eq_add_neg]
    _ ≤ |pt.1| + |(-pt.2)| := abs_add _ _
    _ = |pt.1| + |pt.2| := by rw [abs_neg]

/-- Claim C7: the metric returns 0 on ([0],[0]) and ([5],[5]), 200 on
([10],[0]), and on every pair of equal-length non-empty inputs its value lies
in [0, 200]. -/
theorem smape_range_and_values :
    smape [(0 : ℚ)] [0] = some 0 ∧ smape [(5 : ℚ)] [5] = some 0 ∧
      smape [(10 : ℚ)] [0] = some 200 ∧
      ∀ preds target : List ℚ, preds.length = target.length → preds ≠ [] →
        ∃ v, smape preds target = some v ∧ 0 ≤ v ∧ v ≤ 200 := by
  refine ⟨by norm_num [smape, smapeKeep, smapeBase],
    by norm_num [smape, smapeKeep, smapeBase],
    by norm_num [smape, smapeKeep, smapeBase],
    fun preds target _hlen hne => ?_⟩
  have hn : preds.length ≠ 0 := by simpa [List.length_eq_zero] using hne
  have hnQ : (0 : ℚ) < preds.length := by
    exact_mod_cast Nat.pos_of_ne_zero hn
  set l := ((preds.zip target).filter smapeKeep).map smapeBase with hl
  have hS0 : 0 ≤ l.sum := by
    refine List.sum_nonneg fun x hx => ?_
    obtain ⟨pt, _, rfl⟩ := List.mem_map.mp hx
    exact smapeBase_nonneg pt
  have hS1 : l.sum ≤ (l.length : ℚ) := by
    have := List.sum_le_card_nsmul l 1 fun x hx => by
      obtain ⟨pt, hpt, rfl⟩ := List.mem_map.mp hx
      exact smapeBase_le_one pt (List.mem_filter.mp hpt).2
    simpa using this
  have hcard : (l.length : ℚ) ≤ (preds.length : ℚ) := by
    have h1 : l.length ≤ (preds.zip target).length := by
      rw [hl, List.length_map]
      exact List.length_filter_le _ _
    have h2 : (preds.zip target).length ≤ preds.length := by
      rw [List.length_zip]
      exact min_le_left _ _
    exact_mod_cast le_trans h1 h2
  refine ⟨_, by rw [smape, if_neg hn], ?_, ?_⟩
  · exact div_nonneg (mul_nonneg (by norm_num) hS0) hnQ.le
  · rw [div_le_iff₀ hnQ]
    exact mul_le_mul_of_nonneg_left (le_trans hS1 hcard) (by norm_num)

/-- Witness for C7 at preds = [1], target = [3]. -/
theorem smape_range_and_values_witness :
    ([(1 : ℚ)].length = [(3 : ℚ)].length) ∧ ([(1 : ℚ)] ≠ []) ∧
      ∃ v, smape [(1 : ℚ)] [3] = some v ∧ 0 ≤ v ∧ v ≤ 200 :=
  ⟨rfl, by decide, smape_range_and_values.2.2.2 [1] [3] rfl (by decide)⟩

/-- Counterexample for claim C9: on empty input the script's `smape` does not
raise any error; it reaches the final division with `n = 0`, and numpy's
`0 / 0` yields NaN (embedded as `none`).  No `ConfigurationError` exists
anywhere in the code. -/
theorem smape_empty_no_error : smape ([] : List ℚ) [] = none ∧ ([] : List ℚ).length = 0 :=
  ⟨rfl, rfl⟩

/-- Claim C9 amended: the metric never raises on any input; the empty input is
exactly the case in which the final division is `0 / 0` and the result is the
undefined NaN value (`none`), and every non-empty input yields a value. -/
theorem smape_none_iff_empty (preds target : List ℚ) :
    smape preds target = none ↔ preds = [] := by
  rw [smape]
  by_cases h : preds.length = 0
  · simp [h, List.length_eq_zero.mp h]
  · have hne : preds ≠ [] := by
      intro hp
      exact h (by simp [hp])
    simp [h, hne]

/-- Claim C2: the time-based split at the cutoff 2020-10-01 puts exactly the
rows with earlier timestamps into the train set and the rows with timestamps
on or after the cutoff into the validation set; the two sets are disjoint and
together are a permutation of (here: exhaust) the input rows. -/
theorem time_split_partition (rows : List Row) :
    (∀ r ∈ trainRows rows, r.transaction_date < cutoffDay) ∧
      (∀ r ∈ valRows rows, cutoffDay ≤ r.transaction_date) ∧
      (∀ r : Row, ¬(r ∈ trainRows rows ∧ r ∈ valRows rows)) ∧
      (trainRows rows ++ valRows rows).Perm rows := by
  refine ⟨?_, ?_, ?_, ?_⟩
  · intro r hr
    have := (List.mem_filter.mp hr).2
    simpa using this
  · intro r hr
    have := (List.mem_filter.mp hr).2
    simpa using this
  · rintro r ⟨h1, h2⟩
    have hlt : r.transaction_date < cutoffDay := by
      simpa using (List.mem_filter.mp h1).2
    have hge : cutoffDay ≤ r.transaction_date := by
      simpa using (List.mem_filter.mp h2).2
    exact absurd hge (Nat.not_le.mpr hlt)
  · have hval : valRows rows
        = rows.filter (fun r => !decide (r.transaction_date < cutoffDay)) := by
      refine List.filter_congr fun r _ => ?_
      by_cases h : r.transaction_date < cutoffDay
      · simp [h, Nat.not_le.mpr h]
      · simp [h, Nat.le_of_not_lt h]
    rw [trainRows, hval]
    exact List.filter_append_perm _ rows

theorem colOfFun_getElem {A : Type*} (n : ℕ) (f : ℕ → A) (i : ℕ) :
    (colOfFun n f)[i]? = if i < n then some (f i) else none := by
  by_cases h : i < n
  · simp [colOfFun, List.getElem?_map, List.getElem?_range, h]
  · have hnone : (List.range n)[i]? = none := by
      rw [List.getElem?_eq_none]
      simpa using Nat.le_of_not_lt h
    simp [colOfFun, List.getElem?_map, hnone, h]

theorem colOfFun_length {A : Type*} (n : ℕ) (f : ℕ → A) : (colOfFun n f).length = n := by
  simp [colOfFun]

theorem count_take_lt {A : Type*} (p : A → Bool) (l : List A) (j : ℕ) (a : A)
    (h : l[j]? = some a) (ha : p a = true) :
    ((l.take j).filter p).length < (l.filter p).length := by
  induction l generalizing j with
  | nil => simp at h
  | cons hd tl ih =>
    cases j with
    | zero =>
      have : hd = a := by simpa using h
      subst this
      rw [List.filter_cons_of_pos ha]
      simp
    | succ j =>
      rw [List.getElem?_cons_succ] at h
      have hih := ih j h
      rw [List.take_succ_cons, List.filter_cons, List.filter_cons]
      by_cases hp : p hd
      · simp only [hp, if_true, List.length_cons]
        omega
      · simp only [hp, if_false]
        exact hih

theorem groupPos_lt_subSeries (rows : List Row) (j : ℕ) (r : Row)
    (h : rows[j]? = some r) :
    groupPos rows r.merchant_id j < (subSeries r.merchant_id rows).length := by
  rw [groupPos, subSeries, List.length_map]
  exact count_take_lt _ rows j r h (by simp)

theorem groupEnum_aux (m : ℕ) (rows : List Row) :
    ∀ (n k j : ℕ) (r : Row),
      ((List.enumFrom n rows).filter (fun p => decide (p.2.merchant_id = m)))[k]?
          = some (j, r) →
      n ≤ j ∧ rows[j - n]? = some r ∧ r.merchant_id = m ∧
        ((rows.take (j - n)).filter (fun s => decide (s.merchant_id = m))).length = k := by
  induction rows with
  | nil =>
    intro n k j r h
    simp [List.enumFrom] at h
  | cons hd tl ih =>
    intro n k j r h
    rw [show List.enumFrom n (hd :: tl) = (n, hd) :: List.enumFrom (n + 1) tl from rfl] at h
    by_cases hm : hd.merchant_id = m
    · rw [List.filter_cons_of_pos (by simpa using hm)] at h
      cases k with
      | zero =>
        have hpair : n = j ∧ hd = r := by simpa using h
        obtain ⟨hj, hr⟩ := hpair
        subst hj
        subst hr
        refine ⟨le_refl _, ?_, hm, ?_⟩
        · simp
        · simp
      | succ k =>
        rw [List.getElem?_cons_succ] at h
        obtain ⟨hn, hget, hmid, hpos⟩ := ih (n + 1) k j r h
        have hj : n ≤ j := le_trans (Nat.le_succ n) hn
        have hsub : j - n = (j - (n + 1)) + 1 := by omega
        refine ⟨hj, ?_, hmid, ?_⟩
        · rw [hsub]
          simpa using hget
        · rw [hsub, List.take_succ_cons, List.filter_cons_of_pos (by simpa using hm)]
          simp [hpos]
    · rw [List.filter_cons_of_neg (by simpa using hm)] at h
      obtain ⟨hn, hget, hmid, hpos⟩ := ih (n + 1) k j r h
      have hj : n ≤ j := le_trans (Nat.le_succ n) hn
      have hsub : j - n = (j - (n + 1)) + 1 := by omega
      refine ⟨hj, ?_, hmid, ?_⟩
      · rw [hsub]
        simpa using hget
      · rw [hsub, List.take_succ_cons, List.filter_cons_of_neg (by simpa using hm)]
        exact hpos

theorem groupEnum_getElem (rows : List Row) (m k j : ℕ) (r : Row)
    (h : (groupEnum rows m)[k]? = some (j, r)) :
    rows[j]? = some r ∧ r.merchant_id = m ∧ groupPos rows m j = k := by
  have := groupEnum_aux m rows 0 k j r (by simpa [groupEnum] using h)
  refine ⟨by simpa using this.2.1, this.2.2.1, ?_⟩
  have := this.2.2.2
  simpa [groupPos] using this

theorem groupTransform_length (f : List ℚ → List (Option ℚ)) (rows : List Row) :
    (groupTransform f rows).length = rows.length := by
  rw [groupTransform, colOfFun_length]

theorem addNoise_length (noise : ℕ → ℚ) (col : List (Option ℚ)) :
    (addNoise noise col).length = col.length := by
  rw [addNoise, colOfFun_length]

theorem shiftList_length (lag : ℕ) (xs : List ℚ) :
    (shiftList lag xs).length = xs.length := by
  rw [shiftList, colOfFun_length]

theorem groupTransform_getElem (f : List ℚ → List (Option ℚ)) (rows : List Row)
    (j : ℕ) (r : Row) (h : rows[j]? = some r) :
    (groupTransform f rows)[j]?
      = some (((f (subSeries r.merchant_id rows))[groupPos rows r.merchant_id j]?).join) := by
  have hj : j < rows.length := (List.getElem?_eq_some.mp h).1
  rw [groupTransform, colOfFun_getElem, if_pos hj, h]
  rfl

theorem addNoise_getElem (noise : ℕ → ℚ) (col : List (Option ℚ)) (j : ℕ)
    (h : j < col.length) :
    (addNoise noise col)[j]? = some ((col[j]?.join).map (fun v => v + noise j)) := by
  rw [addNoise, colOfFun_getElem, if_pos h]

theorem shiftList_getElem (lag : ℕ) (xs : List ℚ) (i : ℕ) (h : i < xs.length) :
    (shiftList lag xs)[i]? = some (if lag ≤ i then xs[i - lag]? else none) := by
  rw [shiftList, colOfFun_getElem, if_pos h]

/-- Claim C3: in each merchant group, the column `sales_lag_L` at in-group
position `i` equals the group's target at in-group position `i - L` plus that
row's own noise sample when `i ≥ L`, and is missing for the first `L` rows of
the group. -/
theorem lag_feature_values (rows : List Row) (lag : ℕ) (noise : ℕ → ℚ) (j : ℕ)
    (r : Row) (hj : rows[j]? = some r) :
    (lag ≤ groupPos rows r.merchant_id j →
      ∃ v, (subSeries r.merchant_id rows)[groupPos rows r.merchant_id j - lag]? = some v ∧
        (lagFeatureCol lag noise rows)[j]? = some (some (v + noise j))) ∧
    (groupPos rows r.merchant_id j < lag →
      (lagFeatureCol lag noise rows)[j]? = some none) := by
  have hjlen : j < rows.length := (List.getElem?_eq_some.mp hj).1
  have hilen : groupPos rows r.merchant_id j < (subSeries r.merchant_id rows).length :=
    groupPos_lt_subSeries rows j r hj
  have hG : (groupTransform (shiftList lag) rows)[j]?
      = some (((shiftList lag (subSeries r.merchant_id rows))[groupPos rows r.merchant_id j]?).join) :=
    groupTransform_getElem _ rows j r hj
  have hGlen : j < (groupTransform (shiftList lag) rows).length := by
    rw [groupTransform_length]
    exact hjlen
  have hshift : (shiftList lag (subSeries r.merchant_id rows))[groupPos rows r.merchant_id j]?
      = some (if lag ≤ groupPos rows r.merchant_id j
              then (subSeries r.merchant_id rows)[groupPos rows r.merchant_id j - lag]?
              else none) :=
    shiftList_getElem lag _ _ hilen
  constructor
  · intro hle
    have hidx : groupPos rows r.merchant_id j - lag < (subSeries r.merchant_id rows).length :=
      lt_of_le_of_lt (Nat.sub_le _ _) hilen
    refine ⟨(subSeries r.merchant_id rows)[groupPos rows r.merchant_id j - lag],
      List.getElem?_eq_getElem hidx, ?_⟩
    rw [lagFeatureCol, addNoise_getElem _ _ j hGlen, hG, hshift]
    simp [if_pos hle, List.getElem?_eq_getElem hidx]
  · intro hlt
    rw [lagFeatureCol, addNoise_getElem _ _ j hGlen, hG, hshift]
    simp [Nat.not_le.mpr hlt]

/-- Witness for C3 at `rowsA`, lag 1, zero noise, and the global row 2 (the
second row of merchant 1). -/
theorem lag_feature_values_witness :
    (rowsA[2]? = some ⟨1, 1, 20⟩) ∧
      ((1 ≤ groupPos rowsA (Row.mk 1 1 20).merchant_id 2 →
        ∃ v, (subSeries (Row.mk 1 1 20).merchant_id rowsA)[groupPos rowsA (Row.mk 1 1 20).merchant_id 2 - 1]?
            = some v ∧
          (lagFeatureCol 1 (fun _ => 0) rowsA)[2]? = some (some (v + (fun _ => (0 : ℚ)) 2))) ∧
       (groupPos rowsA (Row.mk 1 1 20).merchant_id 2 < 1 →
        (lagFeatureCol 1 (fun _ => 0) rowsA)[2]? = some none)) :=
  ⟨by decide, lag_feature_values rowsA 1 (fun _ => 0) 2 ⟨1, 1, 20⟩ (by decide)⟩

/-- Claim C4: the rolling-mean feature of a group series at position `i` is
computed from the shift-by-1 series and so depends only on values at strictly
earlier positions, and the EWM feature at position `i` is computed from the
shift-by-`L` series and so depends only on values at positions at least `L`
earlier: two series agreeing on those positions get the same feature value;
neither feature reads the current or any future value. -/
theorem roll_ewm_use_only_past (w : ℕ) (al : ℚ) (L : ℕ) (xs ys : List ℚ) (i : ℕ)
    (hx : i < xs.length) (hy : i < ys.length) :
    ((∀ j, j < i → xs[j]? = ys[j]?) →
      (rollTriang w 10 (shiftList 1 xs))[i]? = (rollTriang w 10 (shiftList 1 ys))[i]?) ∧
    ((∀ j, j + L ≤ i → xs[j]? = ys[j]?) →
      (ewmList al (shiftList L xs))[i]? = (ewmList al (shiftList L ys))[i]?) := by
  constructor
  · intro hagree
    have hpairs : rollWindowPairs w (shiftList 1 xs) i
        = rollWindowPairs w (shiftList 1 ys) i := by
      simp only [rollWindowPairs]
      refine List.filterMap_congr fun k hk => ?_
      have hk2 : k < i + 1 - (i + 1 - w) := List.mem_range.mp hk
      have hle : (i + 1 - w) + k ≤ i := by omega
      rw [shiftList_getElem 1 xs _ (lt_of_le_of_lt hle hx),
        shiftList_getElem 1 ys _ (lt_of_le_of_lt hle hy)]
      by_cases h1 : 1 ≤ (i + 1 - w) + k
      · rw [if_pos h1, if_pos h1, hagree ((i + 1 - w) + k - 1) (by omega)]
      · rw [if_neg h1, if_neg h1]
    simp only [rollTriang, colOfFun_getElem, shiftList_length, hx, hy, if_true]
    simp only [rollEntry, hpairs]
  · intro hagree
    have hpairs : ewmPairs al (shiftList L xs) i = ewmPairs al (shiftList L ys) i := by
      simp only [ewmPairs]
      refine List.filterMap_congr fun j hjm => ?_
      have hj2 : j < i + 1 := List.mem_range.mp hjm
      have hji : j ≤ i := by omega
      rw [shiftList_getElem L xs _ (lt_of_le_of_lt hji hx),
        shiftList_getElem L ys _ (lt_of_le_of_lt hji hy)]
      by_cases h1 : L ≤ j
      · rw [if_pos h1, if_pos h1, hagree (j - L) (by omega)]
      · rw [if_neg h1, if_neg h1]
    simp only [ewmList, colOfFun_getElem, shiftList_length, hx, hy, if_true]
    simp only [ewmEntry, hpairs]

/-- Witness for C4 at xs = [1, 2, 3], ys = [1, 2, 30] (agreeing strictly
before position 2), window 2, alpha 1/2, lag 1, position 2. -/
theorem roll_ewm_use_only_past_witness :
    (2 < [(1 : ℚ), 2, 3].length) ∧ (2 < [(1 : ℚ), 2, 30].length) ∧
      (((∀ j, j < 2 → [(1 : ℚ), 2, 3][j]? = [(1 : ℚ), 2, 30][j]?) →
          (rollTriang 2 10 (shiftList 1 [(1 : ℚ), 2, 3]))[2]?
            = (rollTriang 2 10 (shiftList 1 [(1 : ℚ), 2, 30]))[2]?) ∧
        ((∀ j, j + 1 ≤ 2 → [(1 : ℚ), 2, 3][j]? = [(1 : ℚ), 2, 30][j]?) →
          (ewmList (1 / 2) (shiftList 1 [(1 : ℚ), 2, 3]))[2]?
            = (ewmList (1 / 2) (shiftList 1 [(1 : ℚ), 2, 30]))[2]?)) :=
  ⟨by decide, by decide,
    roll_ewm_use_only_past 2 (1 / 2) 1 [1, 2, 3] [1, 2, 30] 2 (by decide) (by decide)⟩

theorem groupTransform_at_group_row (f : List ℚ → List (Option ℚ)) (rows : List Row)
    (m k j : ℕ) (r : Row) (hk : (groupEnum rows m)[k]? = some (j, r)) :
    (groupTransform f rows)[j]? = some (((f (subSeries m rows))[k]?).join) := by
  obtain ⟨hje, hme, hpe⟩ := groupEnum_getElem rows m k j r hk
  rw [groupTransform_getElem f rows j r hje, hme, hpe]

/-- Claim C5: the feature builders never mix information across merchant
groups.  If two dataframes hold the same target series for merchant `m`, then
the `k`-th row of that group receives identical lag, rolling-mean and EWM
feature values in both dataframes (for the noise-bearing lag and rolling
columns, identical given that the row's own noise draws coincide; the EWM
column has no noise), whatever the other groups contain. -/
theorem group_features_no_cross_leak (rows rows2 : List Row) (m k j j2 : ℕ)
    (r r2 : Row) (lag w : ℕ) (al : ℚ) (noise noise2 : ℕ → ℚ)
    (hs : subSeries m rows = subSeries m rows2)
    (hk : (groupEnum rows m)[k]? = some (j, r))
    (hk2 : (groupEnum rows2 m)[k]? = some (j2, r2)) :
    (noise j = noise2 j2 →
      (lagFeatureCol lag noise rows)[j]? = (lagFeatureCol lag noise2 rows2)[j2]? ∧
      (rollFeatureCol w noise rows)[j]? = (rollFeatureCol w noise2 rows2)[j2]?) ∧
    (ewmFeatureCol al lag rows)[j]? = (ewmFeatureCol al lag rows2)[j2]? := by
  have hje : rows[j]? = some r := (groupEnum_getElem rows m k j r hk).1
  have hje2 : rows2[j2]? = some r2 := (groupEnum_getElem rows2 m k j2 r2 hk2).1
  have hjlen : j < rows.length := (List.getElem?_eq_some.mp hje).1
  have hjlen2 : j2 < rows2.length := (List.getElem?_eq_some.mp hje2).1
  constructor
  · intro hn
    constructor
    · have h1 : (groupTransform (shiftList lag) rows)[j]?
          = some (((shiftList lag (subSeries m rows))[k]?).join) :=
        groupTransform_at_group_row _ rows m k j r hk
      have h2 : (groupTransform (shiftList lag) rows2)[j2]?
          = some (((shiftList lag (subSeries m rows2))[k]?).join) :=
        groupTransform_at_group_row _ rows2 m k j2 r2 hk2
      rw [lagFeatureCol, lagFeatureCol,
        addNoise_getElem _ _ j (by rw [groupTransform_length]; exact hjlen),
        addNoise_getElem _ _ j2 (by rw [groupTransform_length]; exact hjlen2),
        h1, h2, hs, hn]
    · have h1 : (groupTransform (fun s => rollTriang w 10 (shiftList 1 s)) rows)[j]?
          = some (((rollTriang w 10 (shiftList 1 (subSeries m rows)))[k]?).join) :=
        groupTransform_at_group_row _ rows m k j r hk
      have h2 : (groupTransform (fun s => rollTriang w 10 (shiftList 1 s)) rows2)[j2]?
          = some (((rollTriang w 10 (shiftList 1 (subSeries m rows2)))[k]?).join) :=
        groupTransform_at_group_row _ rows2 m k j2 r2 hk2
      rw [rollFeatureCol, rollFeatureCol,
        addNoise_getElem _ _ j (by rw [groupTransform_length]; exact hjlen),
        addNoise_getElem _ _ j2 (by rw [groupTransform_length]; exact hjlen2),
        h1, h2, hs, hn]
  · have h1 : (ewmFeatureCol al lag rows)[j]?
        = some (((ewmList al (shiftList lag (subSeries m rows)))[k]?).join) :=
      groupTransform_at_group_row _ rows m k j r hk
    have h2 : (ewmFeatureCol al lag rows2)[j2]?
        = some (((ewmList al (shiftList lag (subSeries m rows2)))[k]?).join) :=
      groupTransform_at_group_row _ rows2 m k j2 r2 hk2
    rw [h1, h2, hs]

/-- Witness for C5: `rowsA` and `rowsB` agree on merchant 1's series
[10, 20], which sits at global rows 1, 2 of `rowsA` but 0, 1 of `rowsB`;
the second group row (k = 1) is compared, with zero noise on both sides. -/
theorem group_features_no_cross_leak_witness :
    (subSeries 1 rowsA = subSeries 1 rowsB) ∧
      ((groupEnum rowsA 1)[1]? = some (2, ⟨1, 1, 20⟩)) ∧
      ((groupEnum rowsB 1)[1]? = some (1, ⟨1, 6, 20⟩)) ∧
      ((((fun _ => (0 : ℚ)) 2 = (fun _ => (0 : ℚ)) 1 →
          (lagFeatureCol 1 (fun _ => 0) rowsA)[2]? = (lagFeatureCol 1 (fun _ => 0) rowsB)[1]? ∧
          (rollFeatureCol 2 (fun _ => 0) rowsA)[2]? = (rollFeatureCol 2 (fun _ => 0) rowsB)[1]?) ∧
        (ewmFeatureCol (1 / 2) 1 rowsA)[2]? = (ewmFeatureCol (1 / 2) 1 rowsB)[1]?)) :=
  ⟨by decide, by decide, by decide,
    group_features_no_cross_leak rowsA rowsB 1 1 2 1 ⟨1, 1, 20⟩ ⟨1, 6, 20⟩ 1 2 (1 / 2)
      (fun _ => 0) (fun _ => 0) (by decide) (by decide) (by decide)⟩

/-- Counterexample for claim C6: the validation window 2020-10-01 ..
2020-12-31 is 92 days long, but the smallest lag in the list is 91.  For the
validation row dated 2020-12-31 and lag 91, the source timestamp is
2020-12-31 minus 91 days = 2020-10-01, which is the cutoff itself — on or
after the cutoff, inside the validation window — so the claimed strict bound
fails at that row. -/
theorem lag_91_reaches_validation_window :
    91 ∈ lagsUsed ∧ cutoffDay ≤ datasetEndDay ∧ datasetEndDay ≤ datasetEndDay ∧
      datasetEndDay - 91 = cutoffDay ∧ ¬(datasetEndDay - 91 < cutoffDay) := by
  decide

/-- Claim C6 amended: every lag in the list is at least 91, and the lag-91
source of a validation row falls strictly before the cutoff for every
validation row except the single last day of the dataset (2020-12-31), where
it lands exactly on the cutoff; every lag of at least 92 keeps every
validation row's source strictly before the cutoff. -/
theorem lag_sources_before_cutoff_amended (d L : ℕ) (hd1 : cutoffDay ≤ d)
    (hd2 : d ≤ datasetEndDay) (hL : L ∈ lagsUsed)
    (hne : ¬(d = datasetEndDay ∧ L = 91)) : d - L < cutoffDay := by
  have hbound : ∀ x ∈ lagsUsed, x = 91 ∨ 92 ≤ x := by decide
  have hc : cutoffDay = 1004 := by decide
  have he : datasetEndDay = 1095 := by decide
  rcases hbound L hL with h | h <;> omega

/-- Witness for the amended C6 at the validation row 2020-12-30 with lag 91. -/
theorem lag_sources_before_cutoff_amended_witness :
    (cutoffDay ≤ dayNumber 2020 12 30) ∧ (dayNumber 2020 12 30 ≤ datasetEndDay) ∧
      (91 ∈ lagsUsed) ∧ ¬(dayNumber 2020 12 30 = datasetEndDay ∧ 91 = 91) ∧
      dayNumber 2020 12 30 - 91 < cutoffDay :=
  ⟨by decide, by decide, by decide, by decide,
    lag_sources_before_cutoff_amended (dayNumber 2020 12 30) 91 (by decide) (by decide)
      (by decide) (by decide)⟩

/-- Counterexample for claim C8: 2018-06-24 lies inside the inclusive ±3-day
window around the 2018 solstice (June 21), yet the script's indicator is 0
there; likewise the 2020 solstice day itself (2020-06-20) gets indicator 0
because the script lists no 2020 dates at all. -/
theorem solstice_window_mismatch :
    claimedSolsticeWindow 2018 6 24 = true ∧
      isSummerSolstice (dayNumber 2018 6 24) = 0 ∧
      claimedSolsticeWindow 2020 6 20 = true ∧
      isSummerSolstice (dayNumber 2020 6 20) = 0 := by
  decide

/-- Claim C8 amended: over the dataset's date range (years 2018-2020, every
month/day field below its calendar bound), the indicator is 1 exactly on the
four fixed dates June 19-22 of 2018 and of 2019 — a 4-day window per year
covering only the first two years — and 0 on every other date, including the
whole of 2020. -/
theorem solstice_indicator_amended :
    ∀ y ∈ List.range 3, ∀ m ∈ List.range 13, ∀ d ∈ List.range 32,
      (isSummerSolstice (dayNumber (2018 + y) m d) = 1 ↔
        ((y = 0 ∨ y = 1) ∧ m = 6 ∧ 19 ≤ d ∧ d ≤ 22)) := by
  decide

/-- Witness for the amended C8 at 2018-06-21. -/
theorem solstice_indicator_amended_witness :
    (0 ∈ List.range 3) ∧ (6 ∈ List.range 13) ∧ (21 ∈ List.range 32) ∧
      (isSummerSolstice (dayNumber (2018 + 0) 6 21) = 1 ↔
        ((0 = 0 ∨ 0 = 1) ∧ 6 = 6 ∧ 19 ≤ 21 ∧ 21 ≤ 22)) :=
  ⟨by decide, by decide, by decide,
    solstice_indicator_amended 0 (by decide) 6 (by decide) 21 (by decide)⟩

/-- Counterexample for claim C10: with a negative target value -2 the
pipeline does not fail before the transform — line 193 applies `np.log1p` to
the whole column unconditionally, producing NaN at that cell (numpy raises
nothing; no `InvalidInput` exists in the code), even though the value is
negative. -/
theorem log1p_applied_to_negative :
    transformTarget [-2] = [Log1pResult.nan] ∧ ((-2 : ℚ) < 0) := by
  constructor
  · norm_num [transformTarget, log1pModel]
  · norm_num

/-- Claim C10 amended: the `log(1+x)` transform is applied to every target
cell with no validation at all — also when negative values are present — and
the cell's outcome is NaN exactly for values below -1 (values in [-1, 0) are
transformed without complaint as well). -/
theorem log1p_unconditional (ts : List ℚ) (i : ℕ) (x : ℚ) (h : ts[i]? = some x) :
    (transformTarget ts)[i]? = some (log1pModel x) ∧
      (log1pModel x = Log1pResult.nan ↔ x < -1) := by
  constructor
  · rw [transformTarget, List.getElem?_map, h]
    rfl
  · rw [log1pModel]
    by_cases h1 : x < -1
    · simp [h1]
    · by_cases h2 : x = -1 <;> simp [h1, h2]

/-- Witness for the amended C10 at the column [5, -2], position 1. -/
theorem log1p_unconditional_witness :
    (([(5 : ℚ), -2] : List ℚ)[1]? = some ((-2 : ℚ))) ∧
      ((transformTarget [(5 : ℚ), -2])[1]? = some (log1pModel ((-2 : ℚ))) ∧
        (log1pModel ((-2 : ℚ)) = Log1pResult.nan ↔ ((-2 : ℚ)) < -1)) :=
  ⟨by decide, log1p_unconditional [(5 : ℚ), -2] 1 ((-2 : ℚ)) (by decide)⟩
